import Mathlib

/-!
Verification of the biom3d augmentation and batching core.

Shallow embedding of the crop/pad geometric sampler, the deep-supervision
downsampling transform, the fold splitter and the batch loader from
`src/biom3d/datasets/semseg_batchgen.py` and `src/biom3d/utils.py`.

Conventions of the embedding:
* numpy integer arrays become `List ℕ` / `List ℤ`; per-axis arithmetic is
  `Int` arithmetic (numpy int64 never overflows at the sizes involved).
* the Python floor division `//` is `Int.fdiv`.
* calls to the process-wide random number generator are made explicit: every
  function that draws a random value receives the drawn value as an argument,
  together with a predicate characterising the set of values the numpy or
  `random` call can produce (`np.random.randint(low, high)` draws in
  `[low, high)`).
* float probabilities (`random.random()`, `fg_rate`) and float scale factors
  are modelled as exact rationals `ℚ`.
* a Python exception becomes an `Except` value.
-/

namespace Biom3d

/-- Pointwise combination of three lists, truncating at the shortest. -/
def zipWith3 (f : α → β → γ → δ) : List α → List β → List γ → List δ
  | a :: as, b :: bs, c :: cs => f a b c :: zipWith3 f as bs cs
  | _, _, _ => []

/-! ## Geometric sampler: crops (semseg_batchgen.py lines 34-68) -/

/-- Length of the numpy slice `x[start : start + t]` along an axis of size
`s` (for `0 ≤ start`): empty when `start ≥ s`, clipped at the end of the
axis otherwise.  This is how the crop `img[idx]` of `located_crop` and
`random_crop` (lines 47-51 and 63-67) sizes each spatial axis. -/
def cropLen (s t start : ℕ) : ℕ := min (start + t) s - start

/-- Exclusive upper bound of the per-axis draw of `random_crop` line 60:
`np.random.randint(0, np.maximum(1, img_shape - crop_shape))`. -/
def randomCropHigh (s t : ℕ) : ℤ := max 1 ((s : ℤ) - (t : ℤ))

/-- The set of start values `np.random.randint` can return on one axis in
`random_crop` (line 60): any integer in `[0, max(1, s - t))`. -/
abbrev randomCropStartValid (s t start : ℕ) : Prop :=
  (start : ℤ) < randomCropHigh s t

/-- Per-axis `lower_bound` of `located_crop` line 42:
`np.maximum(0, location - crop_shape + margin)`. -/
def lowerBnd (loc t margin : ℤ) : ℤ := max 0 (loc - t + margin)

/-- Per-axis `higher_bound` of `located_crop` line 43:
`np.maximum(lower_bound + 1, np.minimum(location - margin, img_shape - crop_shape))`. -/
def higherBnd (s t loc margin : ℤ) : ℤ :=
  max (lowerBnd loc t margin + 1) (min (loc - margin) (s - t))

/-- The set of start values `np.random.randint(low=lower_bound,
high=np.maximum(lower_bound+1, higher_bound))` can return on one axis in
`located_crop` (line 44). -/
abbrev locatedStartValid (s t loc margin start : ℤ) : Prop :=
  lowerBnd loc t margin ≤ start ∧
    start < max (lowerBnd loc t margin + 1) (higherBnd s t loc margin)

/-! ## Geometric sampler: centered_pad (semseg_batchgen.py lines 70-89,
identical copy in utils.py lines 388-407) -/

/-- Per-axis leading pad amount, lines 77-78:
`start = (final_size - img_shape) // 2` then `start = start * (start > 0)`. -/
def padStartAmt (finalSize imgShape : ℤ) : ℤ :=
  if 0 < (finalSize - imgShape).fdiv 2 then (finalSize - imgShape).fdiv 2 else 0

/-- Per-axis trailing pad amount, lines 79-80:
`end = final_size - (img_shape + start)` then `end = end * (end > 0)`. -/
def padEndAmt (finalSize imgShape : ℤ) : ℤ :=
  if 0 < finalSize - (imgShape + padStartAmt finalSize imgShape)
  then finalSize - (imgShape + padStartAmt finalSize imgShape) else 0

/-- Length of one axis after `np.pad` with the centered_pad amounts. -/
def paddedLen (finalSize imgShape : ℤ) : ℤ :=
  imgShape + padStartAmt finalSize imgShape + padEndAmt finalSize imgShape

/-- Content of one axis after `np.pad(img, pad, "constant",
constant_values=0)` (line 83): the original data with `padStartAmt` zeros
prepended and `padEndAmt` zeros appended.  numpy pads every axis
independently in exactly this way, so the one-dimensional model captures
each axis of the n-dimensional pad. -/
def centeredPad1D (xs : List ℤ) (finalSize : ℤ) : List ℤ :=
  List.replicate (padStartAmt finalSize xs.length).toNat 0 ++ xs ++
    List.replicate (padEndAmt finalSize xs.length).toNat 0

/-- Spatial shape returned by `centered_pad(img, final_size)` given the
spatial shape of the input, axis by axis. -/
def centeredPadShape (finalSize imgShape : List ℕ) : List ℕ :=
  List.zipWith (fun t c => (paddedLen (t : ℤ) (c : ℤ)).toNat) finalSize imgShape

/-! ## Arithmetic facts about the pad amounts -/

theorem fdiv_two_eq_ediv (a : ℤ) : a.fdiv 2 = a / 2 :=
  Int.fdiv_eq_ediv a (by norm_num)

theorem padStartAmt_nonneg (t s : ℤ) : 0 ≤ padStartAmt t s := by
  unfold padStartAmt; split_ifs <;> omega

theorem padEndAmt_nonneg (t s : ℤ) : 0 ≤ padEndAmt t s := by
  unfold padEndAmt; split_ifs <;> omega

theorem padAmt_sum (t s : ℤ) (h : s ≤ t) :
    padStartAmt t s + padEndAmt t s = t - s := by
  unfold padEndAmt padStartAmt
  rw [fdiv_two_eq_ediv]
  split_ifs <;> omega

theorem padAmt_zero_of_lt (t s : ℤ) (h : t < s) :
    padStartAmt t s = 0 ∧ padEndAmt t s = 0 := by
  unfold padEndAmt padStartAmt
  rw [fdiv_two_eq_ediv]
  split_ifs <;> omega

theorem paddedLen_eq_target (t s : ℤ) (h : s ≤ t) : paddedLen t s = t := by
  have := padAmt_sum t s h
  unfold paddedLen
  omega

theorem paddedLen_eq_self (t s : ℤ) (h : t < s) : paddedLen t s = s := by
  have := padAmt_zero_of_lt t s h
  unfold paddedLen
  omega

/-! ## random_crop_pad (semseg_batchgen.py lines 91-128) -/

/-- The random values consumed by one single-sample call of
`random_crop_pad`: `forceFg` is the `random.random()` draw of line 118,
`fgEmpty` records whether the label channel chosen by `foreground_crop`
line 94 had no foreground voxel (`locations.size == 0`, line 98),
`fgStarts` are the per-axis `np.random.randint` outcomes of `located_crop`
line 44, and `randStarts` those of `random_crop` line 60. -/
structure CropTape where
  forceFg : ℚ
  fgEmpty : Bool
  fgStarts : List ℕ
  randStarts : List ℕ
deriving DecidableEq

/-- Observable outcome of one single-sample `random_crop_pad` call:
the spatial shape of the returned arrays, whether the foreground-biased
branch (`foreground_crop`, line 120) was taken rather than the plain
`random_crop` branch (line 123), and the `fg_margin` argument that the call
handed to `foreground_crop`. -/
structure CropResult where
  shape : List ℕ
  usedForeground : Bool
  marginArg : List ℤ
deriving DecidableEq

/-- Default `fg_rate=0.33` of `random_crop_pad` (line 105). -/
def defaultFgRate : ℚ := mkRat 33 100

/-- Default `fg_margin=np.zeros(3)` of `random_crop_pad` (line 105). -/
def defaultFgMargin : List ℤ := [0, 0, 0]

/-- Branch condition of line 119: `fg_rate > 0 and force_fg < fg_rate`. -/
def usesFg (fgRate forceFg : ℚ) : Bool :=
  if 0 < fgRate ∧ forceFg < fgRate then true else false

/-- Spatial shape produced by `foreground_crop` (lines 91-103): when the
chosen label channel is empty it falls back to `random_crop` (line 99),
otherwise it crops with `located_crop` at the chosen voxel (line 102).
Either way each axis is a slice `img[start : start + t]`. -/
def foregroundCropShape (S T : List ℕ) (tape : CropTape) : List ℕ :=
  if tape.fgEmpty then zipWith3 cropLen S T tape.randStarts
  else zipWith3 cropLen S T tape.fgStarts

/-- Crop part of the single-sample `random_crop_pad` (lines 117-123):
with the weighted coin of line 119 use `foreground_crop`, otherwise
`random_crop`. -/
def cropStage (fgRate : ℚ) (S T : List ℕ) (tape : CropTape) : List ℕ :=
  if 0 < fgRate ∧ tape.forceFg < fgRate then foregroundCropShape S T tape
  else zipWith3 cropLen S T tape.randStarts

/-- Pad part of `random_crop_pad` (lines 125-127): pad with `centered_pad`
exactly when the cropped shape differs from `final_size` on some axis
(`np.any(np.array(img.shape)[1:] - final_size) != 0`). -/
def padStage (T C : List ℕ) : List ℕ :=
  if C ≠ T then centeredPadShape T C else C

/-- Single-sample `random_crop_pad(img, msk, final_size, fg_rate, fg_margin)`
(lines 117-128) at the level of spatial shapes: crop, then pad if needed.
`S` is the spatial shape of the input, `T` the requested `final_size`;
the mask is sliced and padded with the same index tuple, so its spatial
shape follows the same function. -/
def randomCropPad (fgRate : ℚ) (fgMargin : List ℤ) (S T : List ℕ)
    (tape : CropTape) : CropResult :=
  { shape := padStage T (cropStage fgRate S T tape)
    usedForeground := usesFg fgRate tape.forceFg
    marginArg := fgMargin }

/-- Batched branch of `random_crop_pad` (lines 109-115): for a list input
the function recurses per sample with
`random_crop_pad(img[i], msk[i], final_size)` (line 112), leaving
`fg_rate` and `fg_margin` at their defaults.  The `fgRate` and `fgMargin`
arguments received by the batched call are dropped. -/
def randomCropPadBatch (_fgRate : ℚ) (_fgMargin : List ℤ)
    (Ss : List (List ℕ)) (T : List ℕ) (tapes : List CropTape) :
    List CropResult :=
  List.zipWith (fun S tape => randomCropPad defaultFgRate defaultFgMargin S T tape)
    Ss tapes

/-! ## Shape lemmas for the crop-then-pad round trip -/

theorem cropLen_le (s t start : ℕ) : cropLen s t start ≤ t := by
  unfold cropLen; omega

theorem zipWith3_cropLen_forall₂ :
    ∀ (S T starts : List ℕ), S.length = T.length → starts.length = T.length →
      List.Forall₂ (· ≤ ·) (zipWith3 cropLen S T starts) T
  | [], [], _, _, _ => by simp [zipWith3]
  | [], t :: T, starts, hS, hst => by simp at hS
  | s :: S, [], starts, hS, hst => by simp at hS
  | s :: S, t :: T, [], hS, hst => by simp at hst
  | s :: S, t :: T, st :: starts, hS, hst => by
      simp only [zipWith3]
      exact List.Forall₂.cons (cropLen_le s t st)
        (zipWith3_cropLen_forall₂ S T starts (by simpa using hS) (by simpa using hst))

theorem centeredPadShape_eq_target :
    ∀ {C T : List ℕ}, List.Forall₂ (· ≤ ·) C T → centeredPadShape T C = T := by
  intro C T h
  induction h with
  | nil => rfl
  | @cons c t C T hct _ ih =>
      show (paddedLen (t : ℤ) (c : ℤ)).toNat :: centeredPadShape T C = t :: T
      rw [paddedLen_eq_target (t : ℤ) (c : ℤ) (by exact_mod_cast hct), ih]
      simp

/-- Padding a crop whose shape is axiswise at most the target yields the
target shape. -/
theorem padStage_eq_target {C T : List ℕ} (hC : List.Forall₂ (· ≤ ·) C T) :
    padStage T C = T := by
  unfold padStage
  by_cases hCT : C = T
  · rw [if_neg (by simp [hCT])]
    exact hCT
  · rw [if_pos hCT]
    exact centeredPadShape_eq_target hC

/-- Whatever branch the weighted coin and the empty-foreground fallback
take, the cropped shape is axiswise at most the target shape. -/
theorem cropStage_forall₂ (fgRate : ℚ) (S T : List ℕ) (tape : CropTape)
    (hS : S.length = T.length)
    (hr : tape.randStarts.length = T.length)
    (hf : tape.fgStarts.length = T.length) :
    List.Forall₂ (· ≤ ·) (cropStage fgRate S T tape) T := by
  have hrand := zipWith3_cropLen_forall₂ S T tape.randStarts hS hr
  have hfg := zipWith3_cropLen_forall₂ S T tape.fgStarts hS hf
  unfold cropStage foregroundCropShape
  by_cases hBranch : 0 < fgRate ∧ tape.forceFg < fgRate
  · rw [if_pos hBranch]
    cases hE : tape.fgEmpty
    · rw [if_neg (by simp [hE])]
      exact hfg
    · rw [if_pos (by simp [hE])]
      exact hrand
  · rw [if_neg hBranch]
    exact hrand

/-- C1.  Crop-then-pad round trip: whatever branch the weighted coin takes
and whatever start values the random draws produce, the single-sample
`random_crop_pad` returns arrays whose spatial shape is exactly
`final_size`, for every source shape, degenerate one-voxel sources
included.  The only requirements are the ones numpy guarantees: the crop
shape has the dimensionality of the source (asserted at line 59) and the
randint draws produce one start per axis. -/
theorem random_crop_pad_shape_eq_target (fgRate : ℚ) (fgMargin : List ℤ)
    (S T : List ℕ) (tape : CropTape)
    (hS : S.length = T.length)
    (hr : tape.randStarts.length = T.length)
    (hf : tape.fgStarts.length = T.length) :
    (randomCropPad fgRate fgMargin S T tape).shape = T :=
  padStage_eq_target (cropStage_forall₂ fgRate S T tape hS hr hf)

/-- Witness for C1 at concrete inputs, a degenerate one-voxel source among
them. -/
theorem random_crop_pad_shape_eq_target_witness :
    ([(1 : ℕ), 1, 1].length = [(4 : ℕ), 4, 4].length ∧
      [(0 : ℕ), 0, 0].length = [(4 : ℕ), 4, 4].length) ∧
    (randomCropPad (mkRat 33 100) [0, 0, 0] [1, 1, 1] [4, 4, 4]
      ⟨mkRat 1 2, false, [0, 0, 0], [0, 0, 0]⟩).shape = [4, 4, 4] :=
  ⟨⟨rfl, rfl⟩,
    random_crop_pad_shape_eq_target (mkRat 33 100) [0, 0, 0] [1, 1, 1] [4, 4, 4]
      ⟨mkRat 1 2, false, [0, 0, 0], [0, 0, 0]⟩ rfl rfl rfl⟩

/-- C2.  Contract of `centered_pad` on one axis: when the target is at
least the source the padded length is exactly the target; when the source
exceeds the target the axis is returned untouched (no padding, no
cropping); every element of the output is either an element of the input
or the constant fill value 0. -/
theorem centered_pad_spec (xs : List ℤ) (t : ℤ) :
    ((xs.length : ℤ) ≤ t → ((centeredPad1D xs t).length : ℤ) = t) ∧
    (t < (xs.length : ℤ) → centeredPad1D xs t = xs) ∧
    (∀ y ∈ centeredPad1D xs t, y ∈ xs ∨ y = 0) := by
  refine ⟨?_, ?_, ?_⟩
  · intro h
    have hsum := padAmt_sum t (xs.length : ℤ) h
    have h1 := padStartAmt_nonneg t (xs.length : ℤ)
    have h2 := padEndAmt_nonneg t (xs.length : ℤ)
    unfold centeredPad1D
    simp only [List.length_append, List.length_replicate]
    omega
  · intro h
    have hz := padAmt_zero_of_lt t (xs.length : ℤ) h
    unfold centeredPad1D
    rw [hz.1, hz.2]
    simp
  · intro y hy
    unfold centeredPad1D at hy
    rcases List.mem_append.mp hy with hy1 | hy2
    · rcases List.mem_append.mp hy1 with hy3 | hy4
      · exact Or.inr (List.eq_of_mem_replicate hy3)
      · exact Or.inl hy4
    · exact Or.inr (List.eq_of_mem_replicate hy2)

/-- Witness for C2: an axis of length 2 padded to 5 has length 5; an axis
of length 3 padded to a target of 2 is returned unchanged. -/
theorem centered_pad_spec_witness :
    (((([3, 4] : List ℤ).length : ℤ) ≤ 5 ∧
        ((centeredPad1D [3, 4] 5).length : ℤ) = 5) ∧
      ((2 : ℤ) < (([9, 9, 9] : List ℤ).length : ℤ) ∧
        centeredPad1D [9, 9, 9] 2 = [9, 9, 9])) :=
  ⟨⟨by decide, (centered_pad_spec [3, 4] 5).1 (by decide)⟩,
    ⟨by decide, (centered_pad_spec [9, 9, 9] 2).2.1 (by decide)⟩⟩

/-- C3 counterexample.  With `img_shape = 10`, `crop_shape = 3`,
`location = 5` and `margin = 0` on an axis, `located_crop` can draw
`start = 2` (`lower_bound = 2`, `higher_bound = 5`), and then the anchor
voxel 5 lies at `start + crop_shape`, outside the half-open window
`[start + margin, start + crop_shape - margin)` the claim asserts: the
crop `img[2:5]` does not contain the anchor. -/
theorem located_crop_anchor_escape :
    locatedStartValid 10 3 5 0 2 ∧
      ¬ ((2 : ℤ) + 0 ≤ 5 ∧ (5 : ℤ) < 2 + 3 - 0) := by
  constructor
  · constructor
    · decide
    · decide
  · decide

/-- C3 amended.  For feasible anchors and margins (`margin ≤ anchor` and
`2·margin ≤ crop_shape`) with `crop_shape ≤ img_shape`, every start that
`located_crop` can draw places the anchor voxel inside the closed interval
`[start + margin, start + crop_shape - margin]`; the right end must be
closed, by the counterexample above. -/
theorem located_crop_anchor_in_window (s t loc margin start : ℤ)
    (hm0 : 0 ≤ margin) (hl0 : 0 ≤ loc) (hts : t ≤ s)
    (hml : margin ≤ loc) (hmt : 2 * margin ≤ t)
    (h : locatedStartValid s t loc margin start) :
    start + margin ≤ loc ∧ loc ≤ start + t - margin := by
  obtain ⟨h1, h2⟩ := h
  unfold lowerBnd at h1
  unfold higherBnd lowerBnd at h2
  omega

/-- Witness for C3 amended: `img_shape = 10`, `crop_shape = 4`,
`anchor = 5`, `margin = 1`, possible draw `start = 3`. -/
theorem located_crop_anchor_in_window_witness :
    ((0 : ℤ) ≤ 1 ∧ (0 : ℤ) ≤ 5 ∧ (4 : ℤ) ≤ 10 ∧ (1 : ℤ) ≤ 5 ∧
        (2 : ℤ) * 1 ≤ 4 ∧ locatedStartValid 10 4 5 1 3) ∧
      ((3 : ℤ) + 1 ≤ 5 ∧ (5 : ℤ) ≤ 3 + 4 - 1) :=
  ⟨⟨by decide, by decide, by decide, by decide, by decide, by decide⟩,
    located_crop_anchor_in_window 10 4 5 1 3 (by decide) (by decide)
      (by decide) (by decide) (by decide) (by decide)⟩

/-- C4.  The per-axis start drawn by `random_crop` always lies in
`[0, max(1, img_shape - crop_shape)]` (the code draws in the half-open
interval `[0, max(1, img_shape - crop_shape))`, which is contained in the
claimed closed interval), and on an axis where the crop shape is at least
the source shape the start is forced to 0.  Axes are drawn by one
vectorised `np.random.randint` call, independently per axis, so the
one-axis statement covers each axis. -/
theorem random_crop_start_bounds (s t start : ℕ)
    (h : randomCropStartValid s t start) :
    (start : ℤ) ≤ max 1 ((s : ℤ) - (t : ℤ)) ∧ (s ≤ t → start = 0) := by
  unfold randomCropStartValid randomCropHigh at h
  constructor
  · omega
  · intro hst
    omega

/-- Witness for C4: axis of size 10 cropped to 4, possible draw 3. -/
theorem random_crop_start_bounds_witness :
    (randomCropStartValid 10 4 3 ∧
        ((3 : ℤ) ≤ max 1 ((10 : ℤ) - (4 : ℤ)) ∧ (10 ≤ 4 → (3 : ℕ) = 0))) ∧
      (randomCropStartValid 2 5 0 ∧ (2 ≤ 5 → (0 : ℕ) = 0)) :=
  ⟨⟨by decide, random_crop_start_bounds 10 4 3 (by decide)⟩,
    ⟨by decide, (random_crop_start_bounds 2 5 0 (by decide)).2⟩⟩

/-- Concrete tape for the C10 theorem: the `random.random()` draw is 1/2,
which is below a configured `fg_rate` of 1 but not below the default
`fg_rate` of 0.33. -/
def tapeHalf : CropTape := ⟨mkRat 1 2, false, [0, 0, 0], [0, 0, 0]⟩

/-- C10.  In batched (list) mode `random_crop_pad` recurses per sample
with `random_crop_pad(img[i], msk[i], final_size)` (line 112), omitting
the `fg_rate` and `fg_margin` it received: every sample of a batch is
processed with the default rate 0.33 and zero margin whatever the caller
(for instance `RandomCropAndPadTransform.__call__`, line 141) configured,
while on single-sample input the configured rate does take effect.
Concretely, with `fg_rate = 1` and a coin draw of 1/2 a single-sample
call takes the foreground branch, but a batch of one sample with the same
tape takes the plain random branch with zero margin, because 1/2 is not
below the default 0.33. -/
theorem batch_mode_ignores_fg_params :
    (∀ (fgRate : ℚ) (fgMargin : List ℤ) (Ss : List (List ℕ)) (T : List ℕ)
        (tapes : List CropTape),
      randomCropPadBatch fgRate fgMargin Ss T tapes =
        List.zipWith
          (fun S tape => randomCropPad defaultFgRate defaultFgMargin S T tape)
          Ss tapes) ∧
    (randomCropPadBatch 1 [5, 5, 5] [[8, 8, 8]] [4, 4, 4] [tapeHalf]).map
        (fun r => (r.usedForeground, r.marginArg)) = [(false, [0, 0, 0])] ∧
    (randomCropPad 1 [5, 5, 5] [8, 8, 8] [4, 4, 4] tapeHalf).usedForeground =
        true := by
  refine ⟨fun _ _ _ _ _ => rfl, ?_, ?_⟩
  · decide
  · decide

/-! ## DownsampleSegForDSTransform2 (semseg_batchgen.py lines 245-292) -/

/-- A label volume as seen by the downsampling transform: its full numpy
shape `(b, c, spatial...)` and a tag standing for the identity of the
underlying array object, so that passing the array through by reference
(line 280) is distinguishable from allocating a new buffer (line 286,
tagged 0). -/
structure Vol where
  shape : List ℕ
  tag : ℕ
deriving DecidableEq

/-- One entry of `ds_scales`: a scalar factor broadcast over all axes, or
one factor per axis (lines 271-277). -/
inductive DsScale where
  | scalar (q : ℚ)
  | perAxis (qs : List ℚ)
deriving DecidableEq

/-- Lines 272-277: a scalar scale becomes `[s] * len(axes)`; a tuple scale
must have exactly one entry per axis (the `assert` of line 275), modelled
as `none` on violation. -/
def expandScale : DsScale → ℕ → Option (List ℚ)
  | .scalar q, n => some (List.replicate n q)
  | .perAxis qs, n => if qs.length = n then some qs else none

/-- Round-half-to-even of the fraction `p / d` for `d > 0`: the behaviour
of `np.round` on the float `p / d` (numpy rounds ties to the nearest even
integer). -/
def roundHalfEven (p : ℤ) (d : ℕ) : ℤ :=
  if 2 * (p - (d : ℤ) * (p.fdiv (d : ℤ))) < (d : ℤ) then p.fdiv (d : ℤ)
  else if (d : ℤ) < 2 * (p - (d : ℤ) * (p.fdiv (d : ℤ))) then p.fdiv (d : ℤ) + 1
  else if p.fdiv (d : ℤ) % 2 = 0 then p.fdiv (d : ℤ) else p.fdiv (d : ℤ) + 1

/-- Value of `np.round(dim * q)` for an integer axis length `dim` and an
exact rational scale factor `q`: `dim * q = (dim * q.num) / q.den`. -/
def npRoundMul (dim : ℕ) (q : ℚ) : ℤ := roundHalfEven ((dim : ℤ) * q.num) q.den

/-- Lines 282-285: `new_shape = np.array(shape).astype(float)`, then
`new_shape[a] *= s[i]` for each listed axis, then
`np.round(new_shape).astype(int)`.  Non-listed axes hold whole numbers,
which `np.round` leaves unchanged.  The axes list is duplicate-free (the
default is `list(range(2, ndim))`, line 266), so each axis is scaled by
its own factor. -/
def dsNewShape (shape : List ℕ) (axes : List ℕ) (s : List ℚ) : List ℕ :=
  shape.mapIdx (fun j dim =>
    if j ∈ axes then (npRoundMul dim (s.getD (axes.indexOf j) 1)).toNat else dim)

/-- Default `axes = list(range(2, ndim))` of line 266: all axes after
batch and channel. -/
def dsDefaultAxes (ndim : ℕ) : List ℕ := List.range' 2 (ndim - 2)

/-- One iteration of the loop of lines 271-290 for a single `ds_scales`
entry: expand the scale; if every factor equals 1, append the input volume
itself (line 280, by reference); otherwise allocate a fresh buffer of the
rounded shape and fill it by resampling (lines 282-290), modelled as a new
volume with tag 0. -/
def dsApplyScale (v : Vol) (axes : List ℕ) (sc : DsScale) : Option Vol :=
  match expandScale sc axes.length with
  | none => none
  | some s =>
      some (if s.all (fun q => decide (q = 1)) then v
            else ⟨dsNewShape v.shape axes s, 0⟩)

/-- The full `DownsampleSegForDSTransform2.__call__` output list (lines
270-291): one entry per `ds_scales` element, in order. -/
def dsTransform (scales : List DsScale) (axes : List ℕ) (v : Vol) :
    Option (List Vol) :=
  match scales with
  | [] => some []
  | sc :: rest =>
      match dsApplyScale v axes sc, dsTransform rest axes v with
      | some w, some ws => some (w :: ws)
      | _, _ => none

/-- C5.  The deep-supervision downsampler produces one output entry per
requested scale, in the caller-given order; a scale level whose factors
are all 1 contributes the input volume itself (same array object, not a
copy); any other level contributes a freshly allocated volume whose shape
is `round(shape * s)` axis by axis (`dsNewShape`). -/
theorem ds_transform_spec (v : Vol) (axes : List ℕ) :
    ∀ (scales : List DsScale) (out : List Vol),
      dsTransform scales axes v = some out →
      out.length = scales.length ∧
      (∀ k, k < scales.length →
        ∀ s : List ℚ,
          expandScale (scales.getD k (DsScale.scalar 1)) axes.length = some s →
          out.getD k v =
            if s.all (fun q => decide (q = 1)) then v
            else ⟨dsNewShape v.shape axes s, 0⟩) := by
  intro scales
  induction scales with
  | nil =>
      intro out h
      simp only [dsTransform, Option.some.injEq] at h
      subst h
      exact ⟨rfl, fun k hk => by simp at hk⟩
  | cons sc rest ih =>
      intro out h
      simp only [dsTransform] at h
      cases hA : dsApplyScale v axes sc with
      | none => rw [hA] at h; simp at h
      | some w =>
          cases hR : dsTransform rest axes v with
          | none => rw [hA, hR] at h; simp at h
          | some ws =>
              rw [hA, hR] at h
              simp only [Option.some.injEq] at h
              subst h
              obtain ⟨ihlen, ihk⟩ := ih ws hR
              refine ⟨by simp [ihlen], ?_⟩
              intro k hk s hs
              cases k with
              | zero =>
                  unfold dsApplyScale at hA
                  have hsc : (sc :: rest).getD 0 (DsScale.scalar 1) = sc := rfl
                  rw [hsc] at hs
                  rw [hs] at hA
                  simp only [Option.some.injEq] at hA
                  simpa using hA.symm
              | succ k =>
                  have hk2 : k < rest.length := by simpa using hk
                  have hs2 :
                      expandScale (rest.getD k (DsScale.scalar 1)) axes.length =
                        some s := by simpa using hs
                  simpa using ihk k hk2 s hs2

/-- Example volume for the C5 witness: batch 1, channel 1, spatial 8x8x8,
array identity tag 7. -/
def vol888 : Vol := ⟨[1, 1, 8, 8, 8], 7⟩

/-- Example scale list for the C5 witness: identity scale, then 0.5. -/
def dsScalesEx : List DsScale := [DsScale.scalar 1, DsScale.scalar (mkRat 1 2)]

/-- Expected output for the C5 witness: the input volume itself (same tag),
then a fresh 4x4x4 volume. -/
def dsOutEx : List Vol := [⟨[1, 1, 8, 8, 8], 7⟩, ⟨[1, 1, 4, 4, 4], 0⟩]

/-- Witness for C5: on an 8x8x8 volume with scales `[1, 0.5]` and the
default axes `[2, 3, 4]`, the transform returns the input itself followed
by a fresh 4x4x4 volume, and the spec theorem applies to this run. -/
theorem ds_transform_spec_witness :
    (dsTransform dsScalesEx [2, 3, 4] vol888 = some dsOutEx) ∧
    (dsOutEx.length = dsScalesEx.length ∧
      (∀ k, k < dsScalesEx.length →
        ∀ s : List ℚ,
          expandScale (dsScalesEx.getD k (DsScale.scalar 1)) 3 = some s →
          dsOutEx.getD k vol888 =
            if s.all (fun q => decide (q = 1)) then vol888
            else ⟨dsNewShape vol888.shape [2, 3, 4] s, 0⟩)) :=
  ⟨by decide, ds_transform_spec vol888 [2, 3, 4] dsScalesEx dsOutEx (by decide)⟩

/-! ## Fold splitter (utils.py lines 26-73, semseg_batchgen.py lines 431-440) -/

/-- One row of the folds CSV: filename (modelled as a number), fold index,
and the hold_out flag. -/
structure FoldRow where
  filename : ℕ
  fold : ℕ
  hold_out : Bool
deriving DecidableEq

/-- The errors a fold split can surface, together with the error type the
specification names.  `indexError` models the Python `IndexError` raised
by `trainset[self.fold]` on a bad index; `configurationError` is, modelled
from the spec, the dedicated `ConfigurationError` the specification
describes — no such exception class exists anywhere in the code, the
constructor exists here only so that the claim about it can be stated. -/
inductive SplitError where
  | indexError
  | configurationError
deriving DecidableEq

instance {ε α : Type} [DecidableEq ε] [DecidableEq α] :
    DecidableEq (Except ε α) := fun a b =>
  match a, b with
  | Except.ok x, Except.ok y =>
      if h : x = y then isTrue (by rw [h]) else isFalse (by simp [h])
  | Except.error x, Except.error y =>
      if h : x = y then isTrue (by rw [h]) else isFalse (by simp [h])
  | Except.ok _, Except.error _ => isFalse (by simp)
  | Except.error _, Except.ok _ => isFalse (by simp)

/-- The `hold_out == 0` sub-table (`df[df['hold_out']==0]`, utils.py
line 62). -/
def trainDf (df : List FoldRow) : List FoldRow :=
  df.filter (fun r => r.hold_out == false)

/-- `get_folds_df` (utils.py lines 34-52): on an empty table print a
warning and return the empty list; otherwise one filename list per fold
index in `[0, df['fold'].max()]`, preserving row order within a fold. -/
def get_folds_df (df : List FoldRow) : List (List ℕ) :=
  if df.isEmpty then []
  else
    (List.range ((df.map (fun r => r.fold)).foldr max 0 + 1)).map
      (fun i => (df.filter (fun r => r.fold == i)).map (fun r => r.filename))

/-- The training folds of `get_folds_train_test_df` (utils.py line 62). -/
def trainFolds (df : List FoldRow) : List (List ℕ) :=
  get_folds_df (trainDf df)

/-- The merged test set of `get_folds_train_test_df` (utils.py lines
66-72). -/
def testMerged (df : List FoldRow) : List ℕ :=
  (get_folds_df (df.filter (fun r => r.hold_out == true))).flatten

/-- The train/validation split computed by `BatchGenDataLoader.__init__`
(semseg_batchgen.py lines 431-440): `val_imgs = trainset[self.fold]`,
`del trainset[self.fold]`, and `train_imgs` is the concatenation of the
remaining folds in order.  Indexing `trainset[fold]` out of range raises
`IndexError`, modelled as the error branch. -/
def train_test_split (df : List FoldRow) (fold : ℕ) :
    Except SplitError (List ℕ × List ℕ) :=
  if h : fold < (trainFolds df).length then
    Except.ok (((trainFolds df).eraseIdx fold).flatten,
      (trainFolds df).get ⟨fold, h⟩)
  else Except.error SplitError.indexError

/-- The split as a pair, with a default for the error case. -/
def splitOf (df : List FoldRow) (fold : ℕ) : List ℕ × List ℕ :=
  match train_test_split df fold with
  | Except.ok p => p
  | Except.error _ => ([], [])

/-- A 100-row table evenly split into 5 folds, hold_out flag all 0:
filenames 0..99, row `i` in fold `i % 5`. -/
def table100 : List FoldRow :=
  (List.range 100).map (fun i => ⟨i, i % 5, false⟩)

/-! ## List lemmas for the fold splitter -/

theorem eraseIdx_map (f : α → β) :
    ∀ (l : List α) (k : ℕ), (l.map f).eraseIdx k = (l.eraseIdx k).map f
  | [], _ => by simp
  | x :: xs, 0 => by simp
  | x :: xs, k + 1 => by
      simp only [List.map_cons, List.eraseIdx_cons_succ, List.map_cons]
      rw [eraseIdx_map f xs k]

theorem range_eraseIdx (n k : ℕ) (h : k < n) :
    (List.range n).eraseIdx k = (List.range n).filter (fun i => i ≠ k) := by
  induction n with
  | zero => omega
  | succ n ih =>
      rw [List.range_succ]
      rcases Nat.lt_or_ge k n with hk | hk
      · rw [List.eraseIdx_append_of_lt_length (by simpa using hk), ih hk,
          List.filter_append]
        have : [n].filter (fun i => i ≠ k) = [n] := by
          simp
          omega
        rw [this]
      · have hkn : k = n := by omega
        subst hkn
        rw [List.eraseIdx_append_of_length_le (by simp)]
        simp only [List.length_range, Nat.sub_self, List.eraseIdx_cons_zero,
          List.append_nil, List.filter_append]
        have h1 : [k].filter (fun i => i ≠ k) = [] := by simp
        have h2 : (List.range k).filter (fun i => i ≠ k) = List.range k := by
          apply List.filter_eq_self.mpr
          intro a ha
          simp only [List.mem_range] at ha
          simp
          omega
        rw [h1, h2, List.append_nil]

theorem trainFolds_eq (df : List FoldRow)
    (hE : (trainDf df).isEmpty = false) :
    trainFolds df =
      (List.range (((trainDf df).map (fun r => r.fold)).foldr max 0 + 1)).map
        (fun i => ((trainDf df).filter (fun r => r.fold == i)).map
          (fun r => r.filename)) := by
  unfold trainFolds get_folds_df
  rw [if_neg (by simp [hE])]

theorem trainDf_not_empty (df : List FoldRow) (fold : ℕ)
    (h : fold < (trainFolds df).length) :
    (trainDf df).isEmpty = false := by
  cases hE : (trainDf df).isEmpty with
  | false => rfl
  | true =>
      exfalso
      have hnil : trainFolds df = [] := by
        unfold trainFolds get_folds_df
        rw [if_pos hE]
      rw [hnil] at h
      simp at h

theorem trainFolds_get (df : List FoldRow) (fold : ℕ)
    (h : fold < (trainFolds df).length) :
    (trainFolds df).get ⟨fold, h⟩ =
      ((trainDf df).filter (fun r => r.fold == fold)).map
        (fun r => r.filename) := by
  have hE := trainDf_not_empty df fold h
  have hTF := trainFolds_eq df hE
  have hlen : fold < ((trainDf df).map (fun r => r.fold)).foldr max 0 + 1 := by
    rw [hTF] at h
    simpa using h
  simp only [List.get_eq_getElem]
  rw [List.getElem_of_eq hTF]
  simp

/-- Whether a split succeeded. -/
def isOkB : Except SplitError (List ℕ × List ℕ) → Bool
  | Except.ok _ => true
  | Except.error _ => false

set_option maxRecDepth 16000 in
/-- C6.  The train/validation split: with an in-range held-out fold on a
table whose non-holdout part is non-empty, validation is exactly the
filenames of the held-out fold (in table order) and train is the
concatenation of all the other folds in increasing fold-index order; and
on the concrete 100-row, 5-fold, no-holdout table with held-out fold 2,
the split succeeds, validation has 20 filenames, train has 80, the two
are disjoint and together they cover the full filename set. -/
theorem train_test_split_spec :
    (∀ (df : List FoldRow) (fold : ℕ) (h : fold < (trainFolds df).length),
      train_test_split df fold =
        Except.ok
          ((((List.range (trainFolds df).length).filter (fun i => i ≠ fold)).map
              (fun i => ((trainDf df).filter (fun r => r.fold == i)).map
                (fun r => r.filename))).flatten,
            ((trainDf df).filter (fun r => r.fold == fold)).map
              (fun r => r.filename))) ∧
    (isOkB (train_test_split table100 2) = true ∧
      (splitOf table100 2).2.length = 20 ∧
      (splitOf table100 2).1.length = 80 ∧
      (∀ x ∈ (splitOf table100 2).1, x ∉ (splitOf table100 2).2) ∧
      (∀ x ∈ List.range 100, x ∈ (splitOf table100 2).1 ∨
        x ∈ (splitOf table100 2).2) ∧
      (∀ x ∈ (splitOf table100 2).1, x ∈ List.range 100) ∧
      (∀ x ∈ (splitOf table100 2).2, x ∈ List.range 100)) := by
  constructor
  · intro df fold h
    have hE := trainDf_not_empty df fold h
    have hTF := trainFolds_eq df hE
    have hlen : (trainFolds df).length =
        ((trainDf df).map (fun r => r.fold)).foldr max 0 + 1 := by
      rw [hTF]
      simp
    have h' : fold < ((trainDf df).map (fun r => r.fold)).foldr max 0 + 1 := by
      omega
    unfold train_test_split
    rw [dif_pos h]
    rw [trainFolds_get df fold h]
    have hA : ((trainFolds df).eraseIdx fold) =
        ((List.range (trainFolds df).length).filter (fun i => i ≠ fold)).map
          (fun i => ((trainDf df).filter (fun r => r.fold == i)).map
            (fun r => r.filename)) := by
      conv_lhs => rw [hTF]
      rw [eraseIdx_map, range_eraseIdx _ _ h', hlen]
    rw [hA]
  · refine ⟨by decide, by decide, by decide, by decide, by decide, by decide,
      by decide⟩

/-- Small table for the C6 witness: filenames 10 and 11 in folds 0 and 1,
filename 12 held out. -/
def dfW : List FoldRow := [⟨10, 0, false⟩, ⟨11, 1, false⟩, ⟨12, 0, true⟩]

/-- Witness for C6: splitting `dfW` at held-out fold 1 gives train `[10]`
and validation `[11]`. -/
theorem train_test_split_spec_witness :
    (1 < (trainFolds dfW).length) ∧
      train_test_split dfW 1 =
        Except.ok
          ((((List.range (trainFolds dfW).length).filter (fun i => i ≠ 1)).map
              (fun i => ((trainDf dfW).filter (fun r => r.fold == i)).map
                (fun r => r.filename))).flatten,
            ((trainDf dfW).filter (fun r => r.fold == 1)).map
              (fun r => r.filename)) :=
  ⟨by decide, train_test_split_spec.1 dfW 1 (by decide)⟩

/-- C7 counterexample.  The fold split fails on the empty table and on an
out-of-range held-out fold, but the failure is the raw `IndexError` raised
by `trainset[self.fold]` (utils.py returns the empty fold list with only a
printed warning, then semseg_batchgen.py line 437 indexes it), not the
`ConfigurationError` of the claim: no such exception class exists in the
code. -/
theorem split_empty_not_config_error :
    train_test_split ([] : List FoldRow) 0 = Except.error SplitError.indexError ∧
      train_test_split dfW 2 = Except.error SplitError.indexError ∧
      SplitError.indexError ≠ SplitError.configurationError := by
  refine ⟨by decide, by decide, by decide⟩

/-- C7 amended.  The fold splitting operation does fail at construction
time both on an empty fold table and on an out-of-range held-out fold
index, but with an `IndexError` (list index out of range), not with a
dedicated `ConfigurationError`. -/
theorem split_fails_at_construction :
    (∀ (df : List FoldRow) (fold : ℕ), (trainFolds df).length ≤ fold →
      train_test_split df fold = Except.error SplitError.indexError) ∧
    (∀ fold : ℕ,
      train_test_split ([] : List FoldRow) fold =
        Except.error SplitError.indexError) := by
  have base : ∀ (df : List FoldRow) (fold : ℕ), (trainFolds df).length ≤ fold →
      train_test_split df fold = Except.error SplitError.indexError := by
    intro df fold h
    unfold train_test_split
    rw [dif_neg (by omega)]
  exact ⟨base, fun fold =>
    base [] fold (by simp [trainFolds, trainDf, get_folds_df])⟩

set_option maxRecDepth 16000 in
/-- Witness for C7 amended: the 100-row table has 5 folds, so fold 5 is
out of range; and fold 3 on the empty table fails. -/
theorem split_fails_at_construction_witness :
    ((trainFolds table100).length ≤ 5 ∧
        train_test_split table100 5 = Except.error SplitError.indexError) ∧
      train_test_split ([] : List FoldRow) 3 =
        Except.error SplitError.indexError :=
  ⟨⟨by decide, split_fails_at_construction.1 table100 5 (by decide)⟩,
    split_fails_at_construction.2 3⟩

/-! ## Batch loader (semseg_batchgen.py lines 395-517) -/

/-- Constructor parameters of `BatchGenDataLoader` that drive
`get_indices`: `nbof_steps`, `batch_size`, and the worker stride
`number_of_threads_in_multithreaded` stored by the base-class
constructor. -/
structure LoaderCfg where
  nbofSteps : ℕ
  batchSize : ℕ
  numThreadsInMT : ℕ
deriving DecidableEq

/-- Mutable loader state set up at the end of `__init__` (lines 485-486)
and updated by `reset` and `get_indices`. -/
structure LoaderState where
  currentPosition : ℕ
  wasInit : Bool
deriving DecidableEq

/-- State after `__init__` (lines 485-486): `current_position = 0`,
`was_initialized = False`. -/
def freshLoader : LoaderState := ⟨0, false⟩

/-- `reset` (lines 488-493): zero the step counter and mark the loader
initialized. -/
def resetLoader (_st : LoaderState) : LoaderState := ⟨0, true⟩

/-- The `StopIteration` exception raised at line 506. -/
inductive StopSignal where
  | stopIteration
deriving DecidableEq

/-- `get_indices` (lines 495-506).  `draw` is the outcome of
`np.random.choice(self.indices, self.batch_size, replace=True)` (line
499), drawn before the step check.  If the loader is not initialized it
first resets itself; then, while `current_position < nbof_steps`, it
advances the counter by the worker stride and returns the drawn indices;
otherwise it clears `was_initialized` and raises `StopIteration`. -/
def get_indices (cfg : LoaderCfg) (draw : List ℕ) (st : LoaderState) :
    Except StopSignal (List ℕ) × LoaderState :=
  if (if st.wasInit then st else resetLoader st).currentPosition < cfg.nbofSteps
  then
    (Except.ok draw,
      ⟨(if st.wasInit then st else resetLoader st).currentPosition +
          cfg.numThreadsInMT,
        (if st.wasInit then st else resetLoader st).wasInit⟩)
  else
    (Except.error StopSignal.stopIteration,
      ⟨(if st.wasInit then st else resetLoader st).currentPosition, false⟩)

/-- State of the loader after `n` calls of `get_indices`, the `k`-th call
receiving the random draw `draws k`. -/
def runLoader (cfg : LoaderCfg) (draws : ℕ → List ℕ) (st : LoaderState) :
    ℕ → LoaderState
  | 0 => st
  | n + 1 => (get_indices cfg (draws n) (runLoader cfg draws st n)).2

/-- Outcome of call number `n` (counting from 0) of `get_indices`. -/
def callResult (cfg : LoaderCfg) (draws : ℕ → List ℕ) (st : LoaderState)
    (n : ℕ) : Except StopSignal (List ℕ) :=
  (get_indices cfg (draws n) (runLoader cfg draws st n)).1

theorem get_indices_ok_init (cfg : LoaderCfg) (d : List ℕ) (p : ℕ)
    (hp : p < cfg.nbofSteps) :
    get_indices cfg d ⟨p, true⟩ =
      (Except.ok d, ⟨p + cfg.numThreadsInMT, true⟩) := by
  simp [get_indices, hp]

theorem get_indices_ok_fresh (cfg : LoaderCfg) (d : List ℕ) (p : ℕ)
    (h0 : 0 < cfg.nbofSteps) :
    get_indices cfg d ⟨p, false⟩ =
      (Except.ok d, ⟨cfg.numThreadsInMT, true⟩) := by
  simp [get_indices, resetLoader, h0]

theorem get_indices_stop (cfg : LoaderCfg) (d : List ℕ) (p : ℕ)
    (hp : cfg.nbofSteps ≤ p) :
    get_indices cfg d ⟨p, true⟩ =
      (Except.error StopSignal.stopIteration, ⟨p, false⟩) := by
  simp [get_indices, Nat.not_lt.mpr hp]

theorem runLoader_steady (cfg : LoaderCfg) (h1 : cfg.numThreadsInMT = 1)
    (draws : ℕ → List ℕ) (b : Bool) :
    ∀ k, k ≤ cfg.nbofSteps → 1 ≤ k →
      runLoader cfg draws ⟨0, b⟩ k = ⟨k, true⟩ := by
  intro k
  induction k with
  | zero => intro _ h; omega
  | succ k ih =>
      intro hk _
      show (get_indices cfg (draws k) (runLoader cfg draws ⟨0, b⟩ k)).2 =
        (⟨k + 1, true⟩ : LoaderState)
      rcases Nat.eq_zero_or_pos k with hz | hpos
      · subst hz
        show (get_indices cfg (draws 0) ⟨0, b⟩).2 = (⟨1, true⟩ : LoaderState)
        cases b
        · rw [get_indices_ok_fresh cfg (draws 0) 0 (by omega)]
          simp [h1]
        · rw [get_indices_ok_init cfg (draws 0) 0 (by omega)]
          simp [h1]
      · rw [ih (by omega) hpos,
          get_indices_ok_init cfg (draws k) k (by omega)]
        simp [h1]

/-- C8.  With `total_steps = 10` and single-worker stride 1, the first 10
calls of `get_indices` each succeed and return the `batch_size` indices
that `np.random.choice` drew; the 11th call raises `StopIteration`; and
`reset` zeroes the step counter, after which the same pattern of 10
successes recurs from the reset state. -/
theorem loader_total_steps (bs : ℕ) (draws : ℕ → List ℕ)
    (hd : ∀ k, (draws k).length = bs) :
    (∀ k, k < 10 →
      callResult ⟨10, bs, 1⟩ draws freshLoader k = Except.ok (draws k) ∧
        (draws k).length = bs) ∧
    callResult ⟨10, bs, 1⟩ draws freshLoader 10 =
      Except.error StopSignal.stopIteration ∧
    (∀ st : LoaderState, (resetLoader st).currentPosition = 0) ∧
    (∀ st : LoaderState, ∀ k, k < 10 →
      callResult ⟨10, bs, 1⟩ draws (resetLoader st) k = Except.ok (draws k)) := by
  have h10 : (⟨10, bs, 1⟩ : LoaderCfg).nbofSteps = 10 := rfl
  have steady := runLoader_steady ⟨10, bs, 1⟩ rfl draws
  refine ⟨?_, ?_, fun _ => rfl, ?_⟩
  · intro k hk
    refine ⟨?_, hd k⟩
    unfold callResult
    rcases Nat.eq_zero_or_pos k with hz | hpos
    · subst hz
      show (get_indices ⟨10, bs, 1⟩ (draws 0) ⟨0, false⟩).1 = Except.ok (draws 0)
      rw [get_indices_ok_fresh ⟨10, bs, 1⟩ (draws 0) 0 (by rw [h10]; omega)]
    · have hrun : runLoader ⟨10, bs, 1⟩ draws freshLoader k =
          (⟨k, true⟩ : LoaderState) :=
        steady false k (by rw [h10]; omega) hpos
      rw [show runLoader ⟨10, bs, 1⟩ draws freshLoader k =
          runLoader ⟨10, bs, 1⟩ draws ⟨0, false⟩ k from rfl] at hrun
      rw [show (freshLoader : LoaderState) = ⟨0, false⟩ from rfl, hrun,
        get_indices_ok_init ⟨10, bs, 1⟩ (draws k) k (by rw [h10]; omega)]
  · unfold callResult
    have hrun := steady false 10 (by rw [h10]) (by omega)
    rw [show (freshLoader : LoaderState) = ⟨0, false⟩ from rfl, hrun,
      get_indices_stop ⟨10, bs, 1⟩ (draws 10) 10 (by rw [h10])]
  · intro st k hk
    unfold callResult
    rcases Nat.eq_zero_or_pos k with hz | hpos
    · subst hz
      show (get_indices ⟨10, bs, 1⟩ (draws 0) ⟨0, true⟩).1 = Except.ok (draws 0)
      rw [get_indices_ok_init ⟨10, bs, 1⟩ (draws 0) 0 (by rw [h10]; omega)]
    · have hrun := steady true k (by rw [h10]; omega) hpos
      rw [show (resetLoader st : LoaderState) = ⟨0, true⟩ from rfl, hrun,
        get_indices_ok_init ⟨10, bs, 1⟩ (draws k) k (by rw [h10]; omega)]

/-- Witness for C8 with `batch_size = 4` and a constant draw. -/
theorem loader_total_steps_witness :
    (∀ k : ℕ, ((fun _ => [0, 1, 2, 3] : ℕ → List ℕ) k).length = 4) ∧
    ((∀ k, k < 10 →
      callResult ⟨10, 4, 1⟩ (fun _ => [0, 1, 2, 3]) freshLoader k =
          Except.ok ((fun _ => [0, 1, 2, 3] : ℕ → List ℕ) k) ∧
        ((fun _ => [0, 1, 2, 3] : ℕ → List ℕ) k).length = 4) ∧
    callResult ⟨10, 4, 1⟩ (fun _ => [0, 1, 2, 3]) freshLoader 10 =
      Except.error StopSignal.stopIteration ∧
    (∀ st : LoaderState, (resetLoader st).currentPosition = 0) ∧
    (∀ st : LoaderState, ∀ k, k < 10 →
      callResult ⟨10, 4, 1⟩ (fun _ => [0, 1, 2, 3]) (resetLoader st) k =
        Except.ok ((fun _ => [0, 1, 2, 3] : ℕ → List ℕ) k))) :=
  ⟨fun _ => rfl, loader_total_steps 4 (fun _ => [0, 1, 2, 3]) (fun _ => rfl)⟩

/-- C9 counterexample.  With `total_steps = 10`, stride 1 and
`batch_size = 4`, the 11th call of `get_indices` raises `StopIteration`
(the loader is exhausted), yet the 12th call — with no intervening
`reset()` — succeeds and returns a fresh batch of indices: the failing
call set `was_initialized = False`, and the next call silently resets
itself through the `if not self.was_initialized: self.reset()` guard of
line 496. -/
theorem loader_resumes_after_exhaustion :
    callResult ⟨10, 4, 1⟩ (fun _ => [0, 1, 2, 3]) freshLoader 10 =
        Except.error StopSignal.stopIteration ∧
      (runLoader ⟨10, 4, 1⟩ (fun _ => [0, 1, 2, 3]) freshLoader 11).wasInit =
        false ∧
      callResult ⟨10, 4, 1⟩ (fun _ => [0, 1, 2, 3]) freshLoader 11 =
        Except.ok [0, 1, 2, 3] := by
  refine ⟨by decide, by decide, by decide⟩

/-- C9 amended.  Calling `get_indices` after end-of-stream without an
intervening `reset()` is not an error: because the exhausted state has
`was_initialized = False`, the next call implicitly resets the loader and
silently resumes producing index batches (the first call of a fresh
stream). -/
theorem loader_auto_resets (cfg : LoaderCfg) (d : List ℕ) (st : LoaderState)
    (hw : st.wasInit = false) (h0 : 0 < cfg.nbofSteps) :
    (get_indices cfg d st).1 = Except.ok d ∧
      (get_indices cfg d st).2 = ⟨cfg.numThreadsInMT, true⟩ := by
  have hst : st = ⟨st.currentPosition, false⟩ := by
    cases st
    simp_all
  rw [hst, get_indices_ok_fresh cfg d st.currentPosition h0]
  exact ⟨rfl, rfl⟩

/-- Witness for C9 amended: an exhausted-looking state with position 10
and the initialized flag cleared. -/
theorem loader_auto_resets_witness :
    ((⟨10, false⟩ : LoaderState).wasInit = false ∧
        0 < (⟨10, 4, 1⟩ : LoaderCfg).nbofSteps) ∧
      ((get_indices ⟨10, 4, 1⟩ [7, 7, 7, 7] ⟨10, false⟩).1 =
          Except.ok [7, 7, 7, 7] ∧
        (get_indices ⟨10, 4, 1⟩ [7, 7, 7, 7] ⟨10, false⟩).2 =
          ⟨(⟨10, 4, 1⟩ : LoaderCfg).numThreadsInMT, true⟩) :=
  ⟨⟨rfl, by decide⟩,
    loader_auto_resets ⟨10, 4, 1⟩ [7, 7, 7, 7] ⟨10, false⟩ rfl (by decide)⟩
